import Mathlib

/-!
Verification of the document-extraction core of the Patient_Chatbot repository
(`utils/document_processor.py`).  The Python functions are shallowly embedded:

* Python string helpers (`str.strip`, `str.replace`, `re.sub(r"\s+", " ", _)`,
  `str.lower`, `str.endswith`) become executable functions on `List Char`.
* The regular-expression patterns of `process_upload` are embedded as a small
  deep-embedded `Regex` type together with `matchR`, a continuation-passing
  backtracking matcher reproducing Python `re` semantics for exactly the
  constructs those nine patterns use (case-insensitive literals, character
  classes, greedy `*`/`+`, lazy `+?`, optional groups, ordered alternation,
  lookahead `(?=...)` and the `$` anchor), and `reSearch`, which reproduces
  `re.search`: the match attempted at the leftmost possible start position.
* File-system and OCR effects (`os.path.exists`, PIL verification, the OCR
  result) are passed in explicitly as an `UploadEnv` record; PDF pages are
  passed to the model of `extract_text_from_pdf` as records carrying the
  page's native text layer and the text its rendered image would OCR to.
* Python exceptions become `Except PyErr` values; `PyErr` records the Python
  exception class and its message, and `handle_errors_wrap` models the
  `@handle_errors` decorator, which re-raises every exception as a
  `RuntimeError` with an `Error in <fname>: ...` message.
-/

/-- Python whitespace as matched by `\s` (and stripped by `str.strip`),
restricted to the ASCII whitespace characters. -/
def isPyWs (c : Char) : Bool :=
  c == ' ' || c == '\t' || c == '\n' || c == '\r' || c == '\x0b' || c == '\x0c'

/-- Drop trailing Python whitespace (the right half of `str.strip`). -/
def dropTrailWs (l : List Char) : List Char :=
  (l.reverse.dropWhile (isPyWs ·)).reverse

/-- Python `str.strip()` on a character list. -/
def pyStripL (l : List Char) : List Char :=
  dropTrailWs (l.dropWhile (isPyWs ·))

/-- Python `str.replace('\n', ' ')` on a character list
(`value.strip().replace('\n', ' ')`, document_processor.py line 187). -/
def pyReplNl (l : List Char) : List Char :=
  l.map (fun c => if c == '\n' then ' ' else c)

/-- Python `re.sub(r'\s+', ' ', value)` (document_processor.py line 188):
every maximal run of whitespace becomes one space.  The flag says whether the
previous kept character closed a whitespace run. -/
def pyCollapse : Bool → List Char → List Char
  | _, [] => []
  | prevWs, c :: rest =>
    if isPyWs c then
      if prevWs then pyCollapse true rest
      else ' ' :: pyCollapse true rest
    else c :: pyCollapse false rest

/-- The whole post-match clean-up applied to a captured group in
`process_upload` (lines 186-188): strip, replace newlines, collapse runs. -/
def pyNormV (l : List Char) : List Char :=
  pyCollapse false (pyReplNl (pyStripL l))

/-- String-level wrapper of the clean-up. -/
def pyNormalize (s : String) : String :=
  String.mk (pyNormV s.data)

/-- Python `str.lower()` (ASCII). -/
def pyLowerL (l : List Char) : List Char :=
  l.map Char.toLower

/-- Case-insensitive character comparison, as `re.IGNORECASE` applies to a
literal pattern character. -/
def ciEq (a b : Char) : Bool :=
  a.toLower == b.toLower

/-- `[^\n]` -/
def isNotNl (c : Char) : Bool := !(c == '\n')

/-- `[\s\S]` -/
def isAnyChar (_ : Char) : Bool := true

/-- `[:\s]` -/
def isColonWs (c : Char) : Bool := c == ':' || isPyWs c

/-- `[A-Z0-9-]` under `re.IGNORECASE`: any ASCII letter, digit or hyphen. -/
def isIdChar (c : Char) : Bool := c.isAlpha || c.isDigit || c == '-'

/-- `[A-Z]` and `[a-z]` under `re.IGNORECASE` both match any ASCII letter. -/
def isLetter (c : Char) : Bool := c.isAlpha

/-- The regular-expression constructs used by the nine field patterns of
`process_upload`.  Quantifiers are only ever applied to one-character
classes in those patterns, so `star`/`plus`/`lazyPlus` take a class. -/
inductive Regex where
  /-- a literal run of pattern characters (matched case-insensitively) -/
  | lit : List Char → Regex
  /-- one character of a class -/
  | cls : (Char → Bool) → Regex
  /-- greedy `c*` over a class -/
  | star : (Char → Bool) → Regex
  /-- greedy `c+` over a class -/
  | plus : (Char → Bool) → Regex
  /-- lazy `c+?` over a class -/
  | lazyPlus : (Char → Bool) → Regex
  /-- `r?` (greedy: try the branch first, as Python does) -/
  | opt : Regex → Regex
  /-- ordered alternation `r1|r2` -/
  | alt : Regex → Regex → Regex
  /-- concatenation -/
  | cat : Regex → Regex → Regex
  /-- the capturing group `( ... )` (each pattern has exactly one) -/
  | grp : Regex → Regex
  /-- lookahead `(?=r)` -/
  | look : Regex → Regex
  /-- `$` without `re.MULTILINE`: end of text, or just before a final newline -/
  | eos : Regex

/-- Match a literal (case-insensitively) against a prefix of the input,
returning the rest. -/
def litMatch : List Char → List Char → Option (List Char)
  | [], s => some s
  | _ :: _, [] => none
  | p :: ps, c :: cs => if ciEq p c then litMatch ps cs else none

/-- `[n, n-1, ..., 1]` : the candidate repeat counts of a greedy `+`,
longest first. -/
def descFrom : Nat → List Nat
  | 0 => []
  | n + 1 => (n + 1) :: descFrom n

/-- Candidate repeat counts of a greedy `*`: longest first, down to zero. -/
def starCounts (n : Nat) : List Nat := descFrom n ++ [0]

/-- Candidate repeat counts of a lazy `+?`: shortest first. -/
def lazyCounts (n : Nat) : List Nat := (descFrom n).reverse

/-- The characters a step consumed: the input minus its remaining suffix. -/
def takeConsumed (s s' : List Char) : List Char :=
  s.take (s.length - s'.length)

/-- Try the continuation after dropping each candidate count of characters in
turn, keeping the first success: the backtracking loop of a quantifier. -/
def tryDrops (s : List Char) (cap : Option (List Char))
    (k : List Char → Option (List Char) → Option (Option (List Char))) :
    List Nat → Option (Option (List Char))
  | [] => none
  | n :: ns =>
    match k (s.drop n) cap with
    | some res => some res
    | none => tryDrops s cap k ns

/-- The backtracking matcher.  `matchR r s cap k` attempts to match `r` at the
start of `s` with `cap` the value of the capturing group so far, and calls the
continuation `k` with the remaining input on each candidate match; `none`
from `k` makes the matcher backtrack, exactly as Python's engine does.  The
final answer is `some g` when the whole attempt succeeds with group value
`g`. -/
def matchR : Regex → List Char → Option (List Char) →
    (List Char → Option (List Char) → Option (Option (List Char))) →
    Option (Option (List Char))
  | .lit p, s, cap, k =>
    match litMatch p s with
    | some rest => k rest cap
    | none => none
  | .cls c, s, cap, k =>
    match s with
    | [] => none
    | a :: rest => if c a then k rest cap else none
  | .star c, s, cap, k =>
    tryDrops s cap k (starCounts (s.takeWhile c).length)
  | .plus c, s, cap, k =>
    tryDrops s cap k (descFrom (s.takeWhile c).length)
  | .lazyPlus c, s, cap, k =>
    tryDrops s cap k (lazyCounts (s.takeWhile c).length)
  | .opt r, s, cap, k =>
    match matchR r s cap k with
    | some res => some res
    | none => k s cap
  | .alt r1 r2, s, cap, k =>
    match matchR r1 s cap k with
    | some res => some res
    | none => matchR r2 s cap k
  | .cat r1 r2, s, cap, k =>
    matchR r1 s cap (fun s' cap' => matchR r2 s' cap' k)
  | .grp r, s, cap, k =>
    matchR r s cap (fun s' _ => k s' (some (takeConsumed s s')))
  | .look r, s, cap, k =>
    match matchR r s cap (fun _ c => some c) with
    | some _ => k s cap
    | none => none
  | .eos, s, cap, k =>
    if s = [] ∨ s = ['\n'] then k s cap else none

/-- `re.search`: attempt the match at every start position from the left and
return the group of the first position that matches (Python's leftmost-match
rule).  `some g` means a match whose group 1 holds `g`. -/
def reSearch (r : Regex) : List Char → Option (Option (List Char))
  | [] => matchR r [] none fun _ cap => some cap
  | c :: rest =>
    match matchR r (c :: rest) none (fun _ cap => some cap) with
    | some res => some res
    | none => reSearch r rest

/-- Sequence a list of regexes (the empty literal is the neutral element). -/
def rseq (rs : List Regex) : Regex :=
  rs.foldr Regex.cat (Regex.lit [])

/-- Shorthand for a literal taken from a string. -/
def rlit (s : String) : Regex := Regex.lit s.data

/-- `(?:Patient\s)?Name\s*:\s*([^\n]+)` -/
def nameR : Regex :=
  rseq [.opt (rseq [rlit "Patient", .cls isPyWs]), rlit "Name",
    .star isPyWs, rlit ":", .star isPyWs, .grp (.plus isNotNl)]

/-- `Age\s*:\s*(\d+)` -/
def ageR : Regex :=
  rseq [rlit "Age", .star isPyWs, rlit ":", .star isPyWs,
    .grp (.plus Char.isDigit)]

/-- `(?:Insurance|Patient|Record)?\s*ID\s*[:\s]*([A-Z0-9-]+)` -/
def patientIdR : Regex :=
  rseq [.opt (.alt (rlit "Insurance") (.alt (rlit "Patient") (rlit "Record"))),
    .star isPyWs, rlit "ID", .star isColonWs, .grp (.plus isIdChar)]

/-- `(?:Disease|Diagnosis)\s*(?:Name)?\s*:\s*([^\n]+)` -/
def diseaseR : Regex :=
  rseq [.alt (rlit "Disease") (rlit "Diagnosis"), .star isPyWs,
    .opt (rlit "Name"), .star isPyWs, rlit ":", .star isPyWs,
    .grp (.plus isNotNl)]

/-- `Gender\s*:\s*([^\n]+)` -/
def genderR : Regex :=
  rseq [rlit "Gender", .star isPyWs, rlit ":", .star isPyWs,
    .grp (.plus isNotNl)]

/-- `Blood(?:\sGroup)?\s*:\s*([^\n]+)` -/
def bloodR : Regex :=
  rseq [rlit "Blood", .opt (rseq [.cls isPyWs, rlit "Group"]),
    .star isPyWs, rlit ":", .star isPyWs, .grp (.plus isNotNl)]

/-- `Address\s*:\s*([\s\S]+?)(?=\n(?:Phone|Contact|Gender|Blood|Medication)|$)` -/
def addressR : Regex :=
  rseq [rlit "Address", .star isPyWs, rlit ":", .star isPyWs,
    .grp (.lazyPlus isAnyChar),
    .look (.alt
      (rseq [rlit "\n",
        .alt (rlit "Phone") (.alt (rlit "Contact")
          (.alt (rlit "Gender") (.alt (rlit "Blood") (rlit "Medication"))))])
      .eos)]

/-- `(?:Phone|Contact)\s*(?:Number)?\s*:\s*([^\n]+)` -/
def phoneR : Regex :=
  rseq [.alt (rlit "Phone") (rlit "Contact"), .star isPyWs,
    .opt (rlit "Number"), .star isPyWs, rlit ":", .star isPyWs,
    .grp (.plus isNotNl)]

/-- The lookahead of the medicines pattern: `(?=\n\n|\n[A-Z][a-z]+:|$)`. -/
def medLookR : Regex :=
  .alt (rlit "\n\n")
    (.alt (rseq [rlit "\n", .cls isLetter, .plus isLetter, rlit ":"])
      .eos)

/-- `Medication[s]?\s*:\s*([\s\S]+?)(?=\n\n|\n[A-Z][a-z]+:|$) ` — note the
literal trailing space after the lookahead, exactly as in the source
(document_processor.py line 179). -/
def medicinesR : Regex :=
  rseq [rlit "Medication", .opt (rlit "s"), .star isPyWs, rlit ":",
    .star isPyWs, .grp (.lazyPlus isAnyChar), .look medLookR, rlit " "]

/-- The `patterns` dict of `process_upload` (lines 168-180), in insertion
order. -/
def field_patterns : List (String × Regex) :=
  [("name", nameR), ("age", ageR), ("patient_id", patientIdR),
   ("disease", diseaseR), ("gender", genderR), ("blood", bloodR),
   ("address", addressR), ("phone", phoneR), ("medicines", medicinesR)]

/-- One iteration of the extraction loop (lines 183-190): search the text,
clean up group 1 on a match, otherwise the sentinel.  (In all nine patterns
the capturing group is in a mandatory position, so a successful search always
carries a group; the `getD` default is unreachable.) -/
def extract_value (r : Regex) (text : String) : String :=
  match reSearch r text.data with
  | some cap => String.mk (pyNormV (cap.getD []))
  | none => "Not found"

/-- The `fields` mapping built by the loop, keyed in pattern order. -/
def extract_fields (text : String) : List (String × String) :=
  field_patterns.map fun p => (p.1, extract_value p.2 text)

/-- A raised Python exception: its class and its message. -/
structure PyErr where
  ty : String
  msg : String
deriving DecidableEq, Repr

/-- The tail of `process_upload` once text has been recovered (lines
163-196): reject whitespace-only text, extract the fields, reject a sentinel
`patient_id`, otherwise return the pair. -/
def processRecovered (text : String) :
    Except PyErr (List (String × String) × String) :=
  if String.mk (pyStripL text.data) = "" then
    .error ⟨"ValueError", "No text could be extracted from the document."⟩
  else
    let fields := extract_fields text
    if List.lookup "patient_id" fields = some "Not found" then
      .error ⟨"ValueError",
        "Could not find a valid Insurance ID, Patient ID, or Record ID in the document."⟩
    else
      .ok (fields, text)

/-- `path.lower().endswith(suffix)` -/
def pyEndsWith (path : String) (suffix : String) : Bool :=
  List.isSuffixOf suffix.data (pyLowerL path.data)

/-- The extension test of line 148. -/
def isSupportedExt (path : String) : Bool :=
  [".png", ".jpg", ".jpeg", ".pdf"].any (pyEndsWith path)

/-- The image-extension test of line 152. -/
def isImageExt (path : String) : Bool :=
  [".png", ".jpg", ".jpeg"].any (pyEndsWith path)

/-- The effects `process_upload` performs, passed in explicitly:
whether the path exists, whether PIL image verification succeeds (consulted
only for image extensions) and with what message it fails, and the result of
the text-extraction call (`extract_text_from_image` / `extract_text_from_pdf`,
both already wrapped by their own `@handle_errors`). -/
structure UploadEnv where
  file_exists : Bool
  image_verify_ok : Bool
  image_verify_err : String
  extract_result : Except PyErr String

/-- `process_upload` (lines 139-196) before its decorator: validation,
dispatch, extraction. -/
def process_upload_inner (file_path : String) (env : UploadEnv) :
    Except PyErr (List (String × String) × String) :=
  if env.file_exists = false then
    .error ⟨"FileNotFoundError", "The file was not found at: " ++ file_path⟩
  else if isSupportedExt file_path = false then
    .error ⟨"ValueError", "Unsupported file format. Supported types: PDF, PNG, JPG, JPEG"⟩
  else if isImageExt file_path && !env.image_verify_ok then
    .error ⟨"ValueError", "Invalid or corrupted image file: " ++ env.image_verify_err⟩
  else
    match env.extract_result with
    | .error e => .error e
    | .ok text => processRecovered text

/-- The `@handle_errors` decorator (lines 15-28): every exception is caught
and re-raised as `RuntimeError(f"Error in {func.__name__}: {str(e)}")`. -/
def handle_errors_wrap {α : Type} (fname : String) (r : Except PyErr α) :
    Except PyErr α :=
  match r with
  | .ok a => .ok a
  | .error e => .error ⟨"RuntimeError", "Error in " ++ fname ++ ": " ++ e.msg⟩

/-- `process_upload` as callers see it: the decorated function. -/
def process_upload (file_path : String) (env : UploadEnv) :
    Except PyErr (List (String × String) × String) :=
  handle_errors_wrap "process_upload" (process_upload_inner file_path env)

/-- One PDF page as `extract_text_from_pdf` consumes it: the text of its
digital text layer (`page.extract_text()`, with `""` for an absent layer /
`None`) and the text OCR recovers from the page rendered at 300 dpi. -/
structure PdfPage where
  native : String
  ocr : String

/-- The page-break separator of line 133. -/
def pageBreakSep : String := "\n\n--- Page Break ---\n\n"

/-- Python `sep.join(parts)`: the parts with `sep` between consecutive
parts. -/
def pyJoin (sep : String) : List String → String
  | [] => ""
  | x :: xs => xs.foldl (fun acc p => acc ++ sep ++ p) x

/-- The stripped concatenation of the truthy native text layers
(lines 113-118). -/
def nativeJoined (pages : List PdfPage) : String :=
  String.mk (pyStripL
    (pyJoin "\n" ((pages.map PdfPage.native).filter (fun t => t ≠ ""))).data)

/-- `extract_text_from_pdf` (lines 104-135) on its pages: the returned text
and whether the OCR fallback branch ran. -/
def extract_text_from_pdf (pages : List PdfPage) : String × Bool :=
  let full_text := nativeJoined pages
  if full_text = "" then
    (pyJoin pageBreakSep (pages.map PdfPage.ocr), true)
  else
    (full_text, false)

/-- The number of start positions at which `pat` occurs in a text. -/
def countOccAll (pat : List Char) : List Char → Nat
  | [] => 0
  | c :: rest =>
    (if pat.isPrefixOf (c :: rest) then 1 else 0) + countOccAll pat rest

/-- The Python exception class of a call's outcome, `none` on success. -/
def errKind {α : Type} : Except PyErr α → Option String
  | .error e => some e.ty
  | .ok _ => none

/-- The Python exception message of a call's outcome, `none` on success. -/
def errMsg {α : Type} : Except PyErr α → Option String
  | .error e => some e.msg
  | .ok _ => none

/-- The first character, if any, is not Python whitespace. -/
def headOkB : List Char → Bool
  | [] => true
  | c :: _ => !isPyWs c

/-- The last character, if any, is not Python whitespace. -/
def lastOkB (l : List Char) : Bool :=
  match l.getLast? with
  | some c => !isPyWs c
  | none => true

/-- No two consecutive characters are both Python whitespace: interior
whitespace runs have been collapsed. -/
def noWsRun : List Char → Bool
  | [] => true
  | [_] => true
  | a :: b :: rest => !(isPyWs a && isPyWs b) && noWsRun (b :: rest)

/-! ### Properties of the post-match normalization pipeline -/

theorem headOkB_dropWhile (l : List Char) :
    headOkB (l.dropWhile (isPyWs ·)) = true := by
  induction l with
  | nil => rfl
  | cons c rest ih =>
    cases hc : isPyWs c with
    | true => simpa [List.dropWhile_cons, hc] using ih
    | false => simp [List.dropWhile_cons, hc, headOkB]

theorem headOkB_of_isPrefix {l1 l2 : List Char} (h : l1 <+: l2)
    (h2 : headOkB l2 = true) : headOkB l1 = true := by
  obtain ⟨t, rfl⟩ := h
  cases l1 with
  | nil => rfl
  | cons c r => simpa [headOkB] using h2

theorem dropTrailWs_isPrefix (l : List Char) : dropTrailWs l <+: l := by
  rw [← List.reverse_suffix]
  simpa [dropTrailWs] using List.dropWhile_suffix (l := l.reverse) (p := (isPyWs ·))

theorem lastOkB_reverse (l : List Char) : lastOkB l.reverse = headOkB l := by
  unfold lastOkB
  rw [List.getLast?_reverse]
  cases l <;> simp [headOkB]

theorem lastOkB_eq_head_reverse (x : List Char) : lastOkB x = headOkB x.reverse := by
  simpa using lastOkB_reverse x.reverse

theorem lastOkB_cons_cons (a b : Char) (l : List Char) :
    lastOkB (a :: b :: l) = lastOkB (b :: l) := by
  simp [lastOkB, List.getLast?_cons_cons]

theorem headOk_pyStripL (l : List Char) : headOkB (pyStripL l) = true :=
  headOkB_of_isPrefix (dropTrailWs_isPrefix _) (headOkB_dropWhile l)

theorem lastOk_pyStripL (l : List Char) : lastOkB (pyStripL l) = true := by
  unfold pyStripL dropTrailWs
  rw [lastOkB_reverse]
  exact headOkB_dropWhile _

theorem headOk_pyReplNl {l : List Char} (h : headOkB l = true) :
    headOkB (pyReplNl l) = true := by
  cases l with
  | nil => rfl
  | cons c r =>
    have hc : isPyWs c = false := by simpa [headOkB] using h
    have hne : ¬ (c = '\n') := by
      intro hcn
      rw [hcn] at hc
      exact absurd hc (by decide)
    simp [pyReplNl, headOkB, hne, hc]

theorem lastOk_pyReplNl {l : List Char} (h : lastOkB l = true) :
    lastOkB (pyReplNl l) = true := by
  rw [lastOkB_eq_head_reverse] at h ⊢
  have h2 : headOkB (pyReplNl l.reverse) = true := headOk_pyReplNl h
  unfold pyReplNl at h2 ⊢
  rwa [List.map_reverse] at h2

theorem pyCollapse_cons_ws_true {c : Char} (h : isPyWs c = true) (r : List Char) :
    pyCollapse true (c :: r) = pyCollapse true r := by
  simp [pyCollapse, h]

theorem pyCollapse_cons_ws_false {c : Char} (h : isPyWs c = true) (r : List Char) :
    pyCollapse false (c :: r) = ' ' :: pyCollapse true r := by
  simp [pyCollapse, h]

theorem pyCollapse_cons_not_ws {c : Char} (h : isPyWs c = false) (b : Bool)
    (r : List Char) : pyCollapse b (c :: r) = c :: pyCollapse false r := by
  simp [pyCollapse, h]

theorem headOk_pyCollapse {m : List Char} (h : headOkB m = true) :
    headOkB (pyCollapse false m) = true := by
  cases m with
  | nil => rfl
  | cons c r =>
    have hc : isPyWs c = false := by simpa [headOkB] using h
    rw [pyCollapse_cons_not_ws hc]
    simp [headOkB, hc]

theorem collapse_ne_nil (m : List Char) : ∀ b : Bool,
    lastOkB m = true → m ≠ [] → pyCollapse b m ≠ [] := by
  induction m with
  | nil => intro b _ hm; exact absurd rfl hm
  | cons c r ih =>
    intro b hlast _
    cases r with
    | nil =>
      have hc : isPyWs c = false := by simpa [lastOkB] using hlast
      rw [pyCollapse_cons_not_ws hc]
      simp
    | cons d r' =>
      rw [lastOkB_cons_cons] at hlast
      cases hw : isPyWs c with
      | true =>
        cases b with
        | true =>
          rw [pyCollapse_cons_ws_true hw]
          exact ih true hlast (by simp)
        | false =>
          rw [pyCollapse_cons_ws_false hw]
          simp
      | false =>
        rw [pyCollapse_cons_not_ws hw]
        simp

theorem lastOk_pyCollapse (m : List Char) : ∀ b : Bool,
    lastOkB m = true → lastOkB (pyCollapse b m) = true := by
  induction m with
  | nil => intro b _; rfl
  | cons c r ih =>
    intro b hlast
    cases r with
    | nil =>
      have hc : isPyWs c = false := by simpa [lastOkB] using hlast
      rw [pyCollapse_cons_not_ws hc]
      simp [pyCollapse, lastOkB, hc]
    | cons d r' =>
      rw [lastOkB_cons_cons] at hlast
      cases hw : isPyWs c with
      | true =>
        cases b with
        | true =>
          rw [pyCollapse_cons_ws_true hw]
          exact ih true hlast
        | false =>
          rw [pyCollapse_cons_ws_false hw]
          have hne : pyCollapse true (d :: r') ≠ [] :=
            collapse_ne_nil (d :: r') true hlast (by simp)
          obtain ⟨e, x', hx⟩ := List.exists_cons_of_ne_nil hne
          rw [hx, lastOkB_cons_cons, ← hx]
          exact ih true hlast
      | false =>
        rw [pyCollapse_cons_not_ws hw]
        have hne : pyCollapse false (d :: r') ≠ [] :=
          collapse_ne_nil (d :: r') false hlast (by simp)
        obtain ⟨e, x', hx⟩ := List.exists_cons_of_ne_nil hne
        rw [hx, lastOkB_cons_cons, ← hx]
        exact ih false hlast

theorem mem_pyCollapse {c : Char} (m : List Char) : ∀ b : Bool,
    c ∈ pyCollapse b m → c = ' ' ∨ isPyWs c = false := by
  induction m with
  | nil => intro b h; simp [pyCollapse] at h
  | cons a r ih =>
    intro b h
    cases hw : isPyWs a with
    | true =>
      cases b with
      | true =>
        rw [pyCollapse_cons_ws_true hw] at h
        exact ih true h
      | false =>
        rw [pyCollapse_cons_ws_false hw] at h
        rcases List.mem_cons.mp h with h' | h'
        · exact Or.inl h'
        · exact ih true h'
    | false =>
      rw [pyCollapse_cons_not_ws hw] at h
      rcases List.mem_cons.mp h with h' | h'
      · exact Or.inr (h' ▸ hw)
      · exact ih false h'

theorem headOkB_pyCollapse_true (m : List Char) :
    headOkB (pyCollapse true m) = true := by
  induction m with
  | nil => rfl
  | cons c r ih =>
    cases hw : isPyWs c with
    | true =>
      rw [pyCollapse_cons_ws_true hw]
      exact ih
    | false =>
      rw [pyCollapse_cons_not_ws hw]
      simp [headOkB, hw]

theorem noWsRun_pyCollapse (m : List Char) : ∀ b : Bool,
    noWsRun (pyCollapse b m) = true := by
  induction m with
  | nil => intro b; rfl
  | cons c r ih =>
    intro b
    cases hw : isPyWs c with
    | true =>
      cases b with
      | true =>
        rw [pyCollapse_cons_ws_true hw]
        exact ih true
      | false =>
        rw [pyCollapse_cons_ws_false hw]
        have hx := headOkB_pyCollapse_true r
        have hr := ih true
        cases hc : pyCollapse true r with
        | nil => rfl
        | cons e x' =>
          rw [hc] at hx hr
          have he : isPyWs e = false := by simpa [headOkB] using hx
          simp [noWsRun, he, hr]
    | false =>
      rw [pyCollapse_cons_not_ws hw]
      have hr := ih false
      cases hc : pyCollapse false r with
      | nil => rfl
      | cons e x' =>
        rw [hc] at hr
        simp [noWsRun, hw, hr]

theorem pyCollapse_idem (m : List Char) : ∀ b : Bool,
    pyCollapse b (pyCollapse b m) = pyCollapse b m := by
  induction m with
  | nil => intro b; rfl
  | cons c r ih =>
    intro b
    cases hw : isPyWs c with
    | true =>
      cases b with
      | true =>
        rw [pyCollapse_cons_ws_true hw]
        exact ih true
      | false =>
        rw [pyCollapse_cons_ws_false hw,
          pyCollapse_cons_ws_false (show isPyWs ' ' = true from rfl), ih true]
    | false =>
      rw [pyCollapse_cons_not_ws hw, pyCollapse_cons_not_ws hw, ih false]

theorem pyStripL_fix {v : List Char} (h1 : headOkB v = true)
    (h2 : lastOkB v = true) : pyStripL v = v := by
  have hd : v.dropWhile (isPyWs ·) = v := by
    cases v with
    | nil => rfl
    | cons c r =>
      simp only [headOkB, Bool.not_eq_true'] at h1
      simp [List.dropWhile_cons, h1]
  have hh : headOkB v.reverse = true := by
    rw [← lastOkB_eq_head_reverse]; exact h2
  have ht : dropTrailWs v = v := by
    unfold dropTrailWs
    have hrd : v.reverse.dropWhile (isPyWs ·) = v.reverse := by
      cases hv : v.reverse with
      | nil => rfl
      | cons c r =>
        rw [hv] at hh
        simp only [headOkB, Bool.not_eq_true'] at hh
        simp [List.dropWhile_cons, hh]
    rw [hrd, List.reverse_reverse]
  unfold pyStripL
  rw [hd, ht]

theorem pyReplNl_fix {v : List Char} (h : '\n' ∉ v) : pyReplNl v = v := by
  unfold pyReplNl
  have hc : ∀ c ∈ v, (if c == '\n' then ' ' else c) = c := by
    intro c hcv
    cases hq : c == '\n' with
    | false => simp [hq]
    | true =>
      have hce : c = '\n' := eq_of_beq hq
      exact absurd (hce ▸ hcv) h
  rw [List.map_congr_left hc]
  exact List.map_id' v

theorem headOk_pyNormV (l : List Char) : headOkB (pyNormV l) = true :=
  headOk_pyCollapse (headOk_pyReplNl (headOk_pyStripL l))

theorem lastOk_pyNormV (l : List Char) : lastOkB (pyNormV l) = true :=
  lastOk_pyCollapse _ false (lastOk_pyReplNl (lastOk_pyStripL l))

theorem nl_not_mem_pyNormV (l : List Char) : '\n' ∉ pyNormV l := by
  intro h
  rcases mem_pyCollapse _ false h with h' | h'
  · exact absurd h' (by decide)
  · exact absurd h' (by decide)

theorem noWsRun_pyNormV (l : List Char) : noWsRun (pyNormV l) = true :=
  noWsRun_pyCollapse _ false

theorem pyStripL_pyNormV (l : List Char) : pyStripL (pyNormV l) = pyNormV l :=
  pyStripL_fix (headOk_pyNormV l) (lastOk_pyNormV l)

/-- C9: the post-match whitespace normalization of `process_upload`
(strip, newline replacement, whitespace collapse, lines 186-188) is
idempotent: normalizing an already-normalized value returns it unchanged. -/
theorem claim_C9_normalize_idempotent (s : String) :
    pyNormalize (pyNormalize s) = pyNormalize s := by
  unfold pyNormalize
  show String.mk (pyNormV (pyNormV s.data)) = String.mk (pyNormV s.data)
  congr 1
  show pyCollapse false (pyReplNl (pyStripL (pyNormV s.data))) = pyNormV s.data
  rw [pyStripL_pyNormV, pyReplNl_fix (nl_not_mem_pyNormV _)]
  exact pyCollapse_idem _ false

/-! ### The field map returned by a successful extraction -/

theorem extract_value_cases (r : Regex) (t : String) :
    extract_value r t = "Not found" ∨
      (pyStripL (extract_value r t).data = (extract_value r t).data ∧
       '\n' ∉ (extract_value r t).data ∧
       noWsRun (extract_value r t).data = true) := by
  unfold extract_value
  cases h : reSearch r t.data with
  | none => exact Or.inl rfl
  | some cap =>
    exact Or.inr ⟨pyStripL_pyNormV _, nl_not_mem_pyNormV _, noWsRun_pyNormV _⟩

theorem processRecovered_ok {text : String} {fields : List (String × String)}
    {raw : String} (h : processRecovered text = .ok (fields, raw)) :
    fields = extract_fields text ∧ raw = text := by
  simp only [processRecovered] at h
  by_cases h1 : String.mk (pyStripL text.data) = ""
  · rw [if_pos h1] at h
    exact absurd h (by simp)
  · rw [if_neg h1] at h
    by_cases h2 : List.lookup "patient_id" (extract_fields text) = some "Not found"
    · rw [if_pos h2] at h
      exact absurd h (by simp)
    · rw [if_neg h2] at h
      injection h with h'
      injection h' with hf hr
      exact ⟨hf.symm, hr.symm⟩

theorem lookup_patient_id (t : String) :
    List.lookup "patient_id" (extract_fields t) =
      some (extract_value patientIdR t) := rfl

/-- C6: a successful `processRecovered` returns a field map whose keys are
exactly the nine fixed field names in pattern order, every key present; each
value is either the sentinel `"Not found"` or a cleaned match: stripped of
leading/trailing whitespace, free of embedded line breaks, and with interior
whitespace runs collapsed to single characters. -/
theorem claim_C6_fieldmap_shape (text : String)
    (fields : List (String × String)) (raw : String)
    (h : processRecovered text = .ok (fields, raw)) :
    fields.map Prod.fst =
      ["name", "age", "patient_id", "disease", "gender", "blood",
       "address", "phone", "medicines"] ∧
    ∀ kv ∈ fields, kv.2 = "Not found" ∨
      (pyStripL kv.2.data = kv.2.data ∧ '\n' ∉ kv.2.data ∧
       noWsRun kv.2.data = true) := by
  obtain ⟨hf, -⟩ := processRecovered_ok h
  subst hf
  constructor
  · rfl
  · intro kv hkv
    obtain ⟨p, hp, hpe⟩ := List.mem_map.mp hkv
    rw [← hpe]
    simpa using extract_value_cases p.2 text

/-! ### Rejection paths of `process_upload` -/

/-- C1: on any upload that passes validation and yields non-empty recovered
text, a sentinel `patient_id` after running all the field patterns makes
`process_upload` fail (the `MissingIdentifier` rejection of line 194, wrapped
into a `RuntimeError` by the decorator); no field map is returned even when
other fields matched. -/
theorem claim_C1_missing_identifier_fails (fp : String) (env : UploadEnv)
    (text : String)
    (h1 : env.file_exists = true)
    (h2 : isSupportedExt fp = true)
    (h3 : isImageExt fp = true → env.image_verify_ok = true)
    (h4 : env.extract_result = .ok text)
    (h5 : pyStripL text.data ≠ [])
    (h6 : extract_value patientIdR text = "Not found") :
    process_upload fp env = .error ⟨"RuntimeError",
      "Error in process_upload: Could not find a valid Insurance ID, Patient ID, or Record ID in the document."⟩ := by
  have himg : (isImageExt fp && !env.image_verify_ok) = false := by
    cases hi : isImageExt fp with
    | false => rfl
    | true => simp [h3 hi]
  have hbr : process_upload_inner fp env = processRecovered text := by
    unfold process_upload_inner
    simp [h1, h2, himg, h4]
  have hne : ¬ (String.mk (pyStripL text.data) = "") := by
    intro hx
    apply h5
    simpa using congrArg String.data hx
  have hpr : processRecovered text = .error ⟨"ValueError",
      "Could not find a valid Insurance ID, Patient ID, or Record ID in the document."⟩ := by
    simp only [processRecovered]
    rw [if_neg hne, lookup_patient_id, h6, if_pos rfl]
  unfold process_upload
  rw [hbr, hpr]
  rfl

/-- Closed instance of C1: a document whose text contains a name but no
identifier is rejected even though `name` extraction succeeds. -/
theorem claim_C1_witness :
    extract_value nameR "Name: John Smith" = "John Smith" ∧
    process_upload "doc.pdf" ⟨true, true, "", .ok "Name: John Smith"⟩ =
      .error ⟨"RuntimeError",
        "Error in process_upload: Could not find a valid Insurance ID, Patient ID, or Record ID in the document."⟩ :=
  ⟨by decide,
   claim_C1_missing_identifier_fails "doc.pdf"
     ⟨true, true, "", .ok "Name: John Smith"⟩ "Name: John Smith"
     rfl (by decide) (by decide) rfl (by decide) (by decide)⟩

/-- C5: recovered text that is empty after trimming makes `process_upload`
fail with the `RecognitionFailure` rejection of line 164 (wrapped into a
`RuntimeError` by the decorator); no field map, empty or otherwise, is
returned, and no field extraction is reached. -/
theorem claim_C5_empty_text_fails (fp : String) (env : UploadEnv)
    (text : String)
    (h1 : env.file_exists = true)
    (h2 : isSupportedExt fp = true)
    (h3 : isImageExt fp = true → env.image_verify_ok = true)
    (h4 : env.extract_result = .ok text)
    (h5 : pyStripL text.data = []) :
    process_upload fp env = .error ⟨"RuntimeError",
      "Error in process_upload: No text could be extracted from the document."⟩ := by
  have himg : (isImageExt fp && !env.image_verify_ok) = false := by
    cases hi : isImageExt fp with
    | false => rfl
    | true => simp [h3 hi]
  have hbr : process_upload_inner fp env = processRecovered text := by
    unfold process_upload_inner
    simp [h1, h2, himg, h4]
  have hpr : processRecovered text = .error ⟨"ValueError",
      "No text could be extracted from the document."⟩ := by
    simp only [processRecovered]
    rw [if_pos (show String.mk (pyStripL text.data) = "" by rw [h5])]
  unfold process_upload
  rw [hbr, hpr]
  rfl

/-- Closed instance of C5: whitespace-only recovered text is rejected. -/
theorem claim_C5_witness :
    process_upload "scan.png" ⟨true, true, "", .ok "   "⟩ =
      .error ⟨"RuntimeError",
        "Error in process_upload: No text could be extracted from the document."⟩ :=
  claim_C5_empty_text_fails "scan.png" ⟨true, true, "", .ok "   "⟩ "   "
    rfl (by decide) (by decide) rfl (by decide)

/-- Closed instance of C6 at a concrete document. -/
theorem claim_C6_witness :
    ([("name", "Not found"), ("age", "Not found"), ("patient_id", "A-1"),
      ("disease", "Not found"), ("gender", "Not found"),
      ("blood", "Not found"), ("address", "Not found"),
      ("phone", "Not found"),
      ("medicines", "Not found")].map Prod.fst =
      ["name", "age", "patient_id", "disease", "gender", "blood",
       "address", "phone", "medicines"]) ∧
    ∀ kv ∈ [("name", "Not found"), ("age", "Not found"), ("patient_id", "A-1"),
      ("disease", "Not found"), ("gender", "Not found"),
      ("blood", "Not found"), ("address", "Not found"),
      ("phone", "Not found"), ("medicines", "Not found")],
      kv.2 = "Not found" ∨
        (pyStripL kv.2.data = kv.2.data ∧ '\n' ∉ kv.2.data ∧
         noWsRun kv.2.data = true) :=
  claim_C6_fieldmap_shape "Patient ID: A-1"
    [("name", "Not found"), ("age", "Not found"), ("patient_id", "A-1"),
     ("disease", "Not found"), ("gender", "Not found"),
     ("blood", "Not found"), ("address", "Not found"),
     ("phone", "Not found"), ("medicines", "Not found")]
    "Patient ID: A-1" rfl

/-- C10: a recovered text containing none of the identifier labels
("Insurance ID", "Patient ID", "Record ID", or an "ID:" form) can still
produce a non-sentinel `patient_id`, because the pattern matches the two
letters "ID" case-insensitively anywhere — here inside the word "COVID",
with the colon absent — so `"COVID 19"` yields `patient_id = "19"` and
passes the identifier check. -/
theorem claim_C10_spurious_identifier :
    extract_value patientIdR "COVID 19" = "19" ∧
    processRecovered "COVID 19" =
      .ok (extract_fields "COVID 19", "COVID 19") ∧
    ¬ "Insurance ID".data <:+: "COVID 19".data ∧
    ¬ "Patient ID".data <:+: "COVID 19".data ∧
    ¬ "Record ID".data <:+: "COVID 19".data ∧
    ¬ "ID:".data <:+: "COVID 19".data :=
  ⟨by decide, rfl, by decide, by decide, by decide, by decide⟩

/-! ### Leftmost-match effects on identifier extraction (C2, C10) -/

/-- Counterexample to C2 as universally stated: a text that contains the
well-formed line `"Patient ID: ABC-123"` but whose leftmost match of the ID
pattern is the accidental `"ID"` inside "Provide", so extraction yields `"e"`
rather than `"ABC-123"`. -/
theorem claim_C2_counterexample :
    "Patient ID: ABC-123".data <:+: "Provide ID later\nPatient ID: ABC-123".data ∧
    extract_value patientIdR "Provide ID later\nPatient ID: ABC-123" = "e" ∧
    extract_value patientIdR "Provide ID later\nPatient ID: ABC-123" ≠ "ABC-123" :=
  ⟨by decide, by decide, by decide⟩

/-! ### The address lookahead's fixed label set (C8) -/

/-- Counterexample to C8 as stated: a line starting with "Disease:" is not in
the address pattern's lookahead set, so it is swallowed into the address value
instead of stopping the capture. -/
theorem claim_C8_counterexample :
    extract_value addressR "Address: 12 Main St\nDisease: Flu" =
      "12 Main St Disease: Flu" ∧
    extract_value addressR "Address: 12 Main St\nDisease: Flu" ≠ "12 Main St" :=
  ⟨by decide, by decide⟩

/-- C8 amended: address capture stops before a following line that starts
with one of the five labels of the pattern's lookahead
(Phone, Contact, Gender, Blood, Medication) or at end of text, while labeled
lines outside that set (such as "Disease:") are swallowed into the value. -/
theorem claim_C8_amended_lookahead_set :
    extract_value addressR "Address: 12 Main St\nPhone: 99" = "12 Main St" ∧
    extract_value addressR "Address: 12 Main St\nContact: 99" = "12 Main St" ∧
    extract_value addressR "Address: 12 Main St\nGender: M" = "12 Main St" ∧
    extract_value addressR "Address: 12 Main St\nBlood: B+" = "12 Main St" ∧
    extract_value addressR "Address: 12 Main St\nMedication: X" = "12 Main St" ∧
    extract_value addressR "Address: 12 Main St" = "12 Main St" ∧
    extract_value addressR "Address: 12 Main St\nDisease: Flu" =
      "12 Main St Disease: Flu" :=
  ⟨by decide, by decide, by decide, by decide, by decide, by decide, by decide⟩

/-! ### Error typing of the rejection paths (C4) -/

/-- Counterexample to C4 as stated: two rejections with different causes
(missing file vs. missing identifier) are both raised as the single Python
exception type `RuntimeError` by the `@handle_errors` decorator — the error
kinds are not distinct exception types. -/
theorem claim_C4_counterexample :
    errKind (process_upload "missing.pdf" ⟨false, true, "", .ok "x"⟩) =
      errKind (process_upload "doc.pdf" ⟨true, true, "", .ok "Name: Bob"⟩) ∧
    errKind (process_upload "missing.pdf" ⟨false, true, "", .ok "x"⟩) =
      some "RuntimeError" ∧
    errMsg (process_upload "missing.pdf" ⟨false, true, "", .ok "x"⟩) ≠
      errMsg (process_upload "doc.pdf" ⟨true, true, "", .ok "Name: Bob"⟩) :=
  ⟨by decide, by decide, by decide⟩

/-- C4 amended: the five rejection paths produce five pairwise-distinct
message strings — so the failure kinds are distinguishable — but after the
decorator every one is raised as the same exception type, `RuntimeError`:
they are distinguishable by message, not by exception type. -/
theorem claim_C4_amended_distinct_messages :
    ([process_upload "missing.pdf" ⟨false, true, "", .ok "x"⟩,
      process_upload "doc.txt" ⟨true, true, "", .ok "x"⟩,
      process_upload "pic.jpg" ⟨true, false, "broken", .ok "x"⟩,
      process_upload "doc.pdf" ⟨true, true, "", .ok " "⟩,
      process_upload "doc.pdf" ⟨true, true, "", .ok "Name: Bob"⟩].map
        (fun r => (errKind r, errMsg r)) =
      [(some "RuntimeError",
        some "Error in process_upload: The file was not found at: missing.pdf"),
       (some "RuntimeError",
        some "Error in process_upload: Unsupported file format. Supported types: PDF, PNG, JPG, JPEG"),
       (some "RuntimeError",
        some "Error in process_upload: Invalid or corrupted image file: broken"),
       (some "RuntimeError",
        some "Error in process_upload: No text could be extracted from the document."),
       (some "RuntimeError",
        some "Error in process_upload: Could not find a valid Insurance ID, Patient ID, or Record ID in the document.")]) ∧
    ["Error in process_upload: The file was not found at: missing.pdf",
     "Error in process_upload: Unsupported file format. Supported types: PDF, PNG, JPG, JPEG",
     "Error in process_upload: Invalid or corrupted image file: broken",
     "Error in process_upload: No text could be extracted from the document.",
     "Error in process_upload: Could not find a valid Insurance ID, Patient ID, or Record ID in the document."].Nodup :=
  ⟨rfl, by decide⟩

/-! ### The medicines pattern (C3) -/

/-- C3, evaluated at the failing input: a document with a well-formed
"Medications:" list terminated by a blank line gives the sentinel, because
the pattern's literal trailing space can never match (every position at
which its lookahead succeeds is followed by a newline or the end of text). -/
theorem claim_C3_medicines_not_found :
    extract_value medicinesR
      "Medications:\nAspirin 100mg\nIbuprofen\n\nAddress: Delhi" = "Not found" ∧
    List.lookup "medicines" (extract_fields
      "Medications:\nAspirin 100mg\nIbuprofen\n\nAddress: Delhi") =
      some "Not found" :=
  ⟨by decide, by decide⟩

/-! ### PDF extraction: native text layer vs. per-page OCR (C7) -/

theorem isPrefixOf_append_self : ∀ l t : List Char,
    List.isPrefixOf l (l ++ t) = true
  | [], t => by cases t <;> rfl
  | c :: l', t => by
    simp [List.isPrefixOf, isPrefixOf_append_self l' t]

theorem isPrefixOf_eq_false_of_mem : ∀ {l1 l2 : List Char},
    '\n' ∈ l1 → '\n' ∉ l2 → List.isPrefixOf l1 l2 = false := by
  intro l1
  induction l1 with
  | nil => intro l2 h1 _; simp at h1
  | cons c l1' ih =>
    intro l2 h1 h2
    cases l2 with
    | nil => rfl
    | cons d l2' =>
      cases hq : c == d with
      | false => simp [List.isPrefixOf, hq]
      | true =>
        have hcd : c = d := eq_of_beq hq
        rcases List.mem_cons.mp h1 with hce | hmem
        · exact absurd (by rw [← hcd, ← hce]; exact List.mem_cons_self _ _) h2
        · have h2' : '\n' ∉ l2' := fun hx => h2 (List.mem_cons_of_mem d hx)
          simp [List.isPrefixOf, hq, ih hmem h2']

theorem countOccAll_skip (pt : List Char) :
    ∀ p : List Char, '\n' ∉ p → ∀ t : List Char,
      countOccAll ('\n' :: pt) (p ++ t) = countOccAll ('\n' :: pt) t := by
  intro p
  induction p with
  | nil => intro _ t; simp
  | cons c p' ih =>
    intro hp t
    have hc : ('\n' == c) = false := by
      cases hq : ('\n' == c) with
      | false => rfl
      | true =>
        have hcc : c = '\n' := (eq_of_beq hq).symm
        subst hcc
        exact absurd (List.mem_cons_self _ _) hp
    have hp' : '\n' ∉ p' := fun hx => hp (List.mem_cons_of_mem c hx)
    have hpf : List.isPrefixOf ('\n' :: pt) (c :: (p' ++ t)) = false := by
      simp [List.isPrefixOf, hc]
    calc countOccAll ('\n' :: pt) ((c :: p') ++ t)
        = (if List.isPrefixOf ('\n' :: pt) (c :: (p' ++ t)) then 1 else 0) +
            countOccAll ('\n' :: pt) (p' ++ t) := rfl
      _ = countOccAll ('\n' :: pt) (p' ++ t) := by rw [hpf]; simp
      _ = countOccAll ('\n' :: pt) t := ih hp' t

theorem countOccAll_zero_of_no_nl (pt p : List Char) (hp : '\n' ∉ p) :
    countOccAll ('\n' :: pt) p = 0 := by
  have h := countOccAll_skip pt p hp []
  simpa using h

theorem countOccAll_sep_head (q : List Char) (h : '\n' ∉ q) :
    countOccAll pageBreakSep.data (pageBreakSep.data ++ q) = 1 := by
  have hsep : pageBreakSep.data =
      ['\n', '\n', '-', '-', '-', ' ', 'P', 'a', 'g', 'e', ' ',
       'B', 'r', 'e', 'a', 'k', ' ', '-', '-', '-', '\n', '\n'] := rfl
  have hB : List.isPrefixOf
      ['\n', '-', '-', '-', ' ', 'P', 'a', 'g', 'e', ' ',
       'B', 'r', 'e', 'a', 'k', ' ', '-', '-', '-', '\n', '\n'] q = false :=
    isPrefixOf_eq_false_of_mem (by decide) h
  have hC : List.isPrefixOf
      ['-', '-', '-', ' ', 'P', 'a', 'g', 'e', ' ',
       'B', 'r', 'e', 'a', 'k', ' ', '-', '-', '-', '\n', '\n'] q = false :=
    isPrefixOf_eq_false_of_mem (by decide) h
  have hz : countOccAll pageBreakSep.data q = 0 := by
    rw [hsep]
    exact countOccAll_zero_of_no_nl _ q h
  rw [hsep] at hz ⊢
  simp +decide [countOccAll, List.isPrefixOf, hB, hC, hz]

/-- C7: when the stripped concatenation of the native text layers is
non-empty, `extract_text_from_pdf` returns it and the OCR branch does not
run; otherwise it OCRs every rendered page and joins the page texts with the
page-break separator, so a two-page scanned PDF (with single-line page OCR
results) contains the separator at exactly one position. -/
theorem claim_C7_pdf_native_vs_ocr :
    (∀ pages : List PdfPage, nativeJoined pages ≠ "" →
      extract_text_from_pdf pages = (nativeJoined pages, false)) ∧
    (∀ pages : List PdfPage, nativeJoined pages = "" →
      extract_text_from_pdf pages =
        (pyJoin pageBreakSep (pages.map PdfPage.ocr), true)) ∧
    (∀ p1 p2 : String, '\n' ∉ p1.data → '\n' ∉ p2.data →
      (extract_text_from_pdf [⟨"", p1⟩, ⟨"", p2⟩]).1 =
        p1 ++ pageBreakSep ++ p2 ∧
      countOccAll pageBreakSep.data
        (extract_text_from_pdf [⟨"", p1⟩, ⟨"", p2⟩]).1.data = 1) := by
  refine ⟨?_, ?_, ?_⟩
  · intro pages h
    simp [extract_text_from_pdf, h]
  · intro pages h
    simp [extract_text_from_pdf, h]
  · intro p1 p2 h1 h2
    have hres : (extract_text_from_pdf [⟨"", p1⟩, ⟨"", p2⟩]).1 =
        p1 ++ pageBreakSep ++ p2 := rfl
    refine ⟨hres, ?_⟩
    rw [hres]
    have hd : (p1 ++ pageBreakSep ++ p2).data =
        p1.data ++ (pageBreakSep.data ++ p2.data) := by
      simp [String.data_append, List.append_assoc]
    rw [hd]
    have hsep : pageBreakSep.data =
        ['\n', '\n', '-', '-', '-', ' ', 'P', 'a', 'g', 'e', ' ',
         'B', 'r', 'e', 'a', 'k', ' ', '-', '-', '-', '\n', '\n'] := rfl
    calc countOccAll pageBreakSep.data
          (p1.data ++ (pageBreakSep.data ++ p2.data))
        = countOccAll pageBreakSep.data (pageBreakSep.data ++ p2.data) := by
          rw [hsep]
          exact countOccAll_skip _ p1.data h1 _
      _ = 1 := countOccAll_sep_head p2.data h2

/-! ### The medicines pattern can never match (C3) -/

theorem tryDrops_none (s : List Char) (cap : Option (List Char))
    (K : List Char → Option (List Char) → Option (Option (List Char)))
    (hK : ∀ a b, K a b = none) : ∀ ns : List Nat, tryDrops s cap K ns = none
  | [] => rfl
  | n :: ns => by
    simp only [tryDrops, hK]
    exact tryDrops_none s cap K hK ns

/-- A continuation that always fails makes every match attempt fail: the
matcher only ever reports success through its continuation. -/
theorem matchR_none_of_k_none (r : Regex) : ∀ (s : List Char)
    (cap : Option (List Char))
    (K : List Char → Option (List Char) → Option (Option (List Char))),
    (∀ a b, K a b = none) → matchR r s cap K = none := by
  induction r with
  | lit p =>
    intro s cap K hK
    simp only [matchR]
    cases litMatch p s <;> simp [hK]
  | cls c =>
    intro s cap K hK
    cases s with
    | nil => rfl
    | cons a r => simp [matchR, hK]
  | star c =>
    intro s cap K hK
    simp only [matchR]
    exact tryDrops_none s cap K hK _
  | plus c =>
    intro s cap K hK
    simp only [matchR]
    exact tryDrops_none s cap K hK _
  | lazyPlus c =>
    intro s cap K hK
    simp only [matchR]
    exact tryDrops_none s cap K hK _
  | opt r ih =>
    intro s cap K hK
    simp only [matchR]
    rw [ih s cap K hK]
    exact hK s cap
  | alt r1 r2 ih1 ih2 =>
    intro s cap K hK
    simp only [matchR]
    rw [ih1 s cap K hK]
    exact ih2 s cap K hK
  | cat r1 r2 ih1 ih2 =>
    intro s cap K hK
    simp only [matchR]
    exact ih1 s cap _ (fun a b => ih2 a b K hK)
  | grp r ih =>
    intro s cap K hK
    simp only [matchR]
    exact ih s cap _ (fun a b => hK a _)
  | look r ih =>
    intro s cap K hK
    simp only [matchR]
    cases h : matchR r s cap (fun _ c => some c) <;> simp [h, hK]
  | eos =>
    intro s cap K hK
    simp only [matchR]
    split <;> simp [hK]

theorem matchR_cat_none {r2 : Regex}
    {k : List Char → Option (List Char) → Option (Option (List Char))}
    (h : ∀ a b, matchR r2 a b k = none) (r1 : Regex) :
    ∀ s cap, matchR (.cat r1 r2) s cap k = none := by
  intro s cap
  simp only [matchR]
  exact matchR_none_of_k_none r1 s cap _ h

theorem ciEq_space_of_nl {c : Char} (h : ciEq '\n' c = true) :
    ciEq ' ' c = false := by
  unfold ciEq at h ⊢
  have h1 : Char.toLower '\n' = Char.toLower c := eq_of_beq h
  have h2 : Char.toLower c = '\n' := by
    rw [← h1]
    decide
  rw [h2]
  decide

/-- If the medicines lookahead succeeds at a position, the text there starts
with a newline or has ended, so the literal space that follows the lookahead
in the pattern cannot match. -/
theorem medLook_space {a : List Char} {c' : Option (List Char)}
    {r : Option (List Char)}
    (h : matchR medLookR a c' (fun _ g => some g) = some r) :
    litMatch [' '] a = none := by
  cases a with
  | nil => rfl
  | cons c tl =>
    by_cases hnl : ciEq '\n' c = true
    · have hq := ciEq_space_of_nl hnl
      simp [litMatch, hq]
    · exfalso
      have hnl' : ciEq '\n' c = false := by
        cases hx : ciEq '\n' c with
        | false => rfl
        | true => exact absurd hx hnl
      have hcne : ¬ (c :: tl = ['\n']) := by
        intro hx
        have hc : c = '\n' := (List.cons.injEq c tl '\n' []).mp hx |>.1
        rw [hc] at hnl'
        exact absurd hnl' (by decide)
      have hz : matchR medLookR (c :: tl) c' (fun _ g => some g) = none := by
        simp [matchR, medLookR, rseq, rlit, litMatch, hnl', hcne]
      rw [hz] at h
      exact Option.noConfusion h

theorem medTail_none
    (k : List Char → Option (List Char) → Option (Option (List Char))) :
    ∀ a b, matchR (.cat (.look medLookR) (.cat (rlit " ") (.lit []))) a b k =
      none := by
  intro a b
  show (match matchR medLookR a b (fun _ c => some c) with
    | some _ => matchR (.cat (rlit " ") (.lit [])) a b k
    | none => none) = none
  cases hlk : matchR medLookR a b (fun _ c => some c) with
  | none => rfl
  | some r =>
    have hsp : litMatch [' '] a = none := medLook_space hlk
    show (match litMatch [' '] a with
      | some rest => matchR (.lit []) rest b k
      | none => none) = none
    rw [hsp]

/-- The medicines pattern of the source can match no input at all: its
lookahead only succeeds where the next character is a newline or the text
has ended, and the pattern then demands a literal space. -/
theorem matchR_medicinesR_none (s : List Char) (cap : Option (List Char))
    (k : List Char → Option (List Char) → Option (Option (List Char))) :
    matchR medicinesR s cap k = none := by
  have h7 := medTail_none k
  have h6 : ∀ a b, matchR
      (.cat (.grp (.lazyPlus isAnyChar))
        (.cat (.look medLookR) (.cat (rlit " ") (.lit [])))) a b k = none :=
    matchR_cat_none h7 _
  have h5 : ∀ a b, matchR
      (.cat (.star isPyWs) (.cat (.grp (.lazyPlus isAnyChar))
        (.cat (.look medLookR) (.cat (rlit " ") (.lit []))))) a b k = none :=
    matchR_cat_none h6 _
  have h4 : ∀ a b, matchR
      (.cat (rlit ":") (.cat (.star isPyWs)
        (.cat (.grp (.lazyPlus isAnyChar))
          (.cat (.look medLookR) (.cat (rlit " ") (.lit [])))))) a b k =
        none :=
    matchR_cat_none h5 _
  have h3 : ∀ a b, matchR
      (.cat (.star isPyWs) (.cat (rlit ":") (.cat (.star isPyWs)
        (.cat (.grp (.lazyPlus isAnyChar))
          (.cat (.look medLookR) (.cat (rlit " ") (.lit []))))))) a b k =
        none :=
    matchR_cat_none h4 _
  have h2 : ∀ a b, matchR
      (.cat (.opt (rlit "s")) (.cat (.star isPyWs) (.cat (rlit ":")
        (.cat (.star isPyWs) (.cat (.grp (.lazyPlus isAnyChar))
          (.cat (.look medLookR) (.cat (rlit " ") (.lit [])))))))) a b k =
        none :=
    matchR_cat_none h3 _
  exact matchR_cat_none h2 (rlit "Medication") s cap

theorem reSearch_medicinesR_none : ∀ s : List Char,
    reSearch medicinesR s = none := by
  intro s
  induction s with
  | nil =>
    simp only [reSearch]
    exact matchR_medicinesR_none [] none _
  | cons c rest ih =>
    simp only [reSearch]
    rw [matchR_medicinesR_none]
    exact ih

/-- No recovered text whatsoever gives the medicines field a value: the
pattern never matches, so the field is always the sentinel. -/
theorem medicines_always_not_found (t : String) :
    extract_value medicinesR t = "Not found" := by
  unfold extract_value
  rw [reSearch_medicinesR_none]

/-! ### Extraction from a document that starts with the identifier line (C2) -/

theorem takeConsumed_append (u v : List Char) : takeConsumed (u ++ v) v = u := by
  unfold takeConsumed
  rw [List.length_append, Nat.add_sub_cancel, List.take_left]

/-- C2 amended: whenever the leftmost occurrence matched by the ID pattern is
the well-formed line itself — in particular for every recovered text that
begins with the line `"Patient ID: ABC-123"` — extraction yields
`"ABC-123"`, whatever text follows the line. -/
theorem claim_C2_amended_leading_line (sfx : String) :
    extract_value patientIdR ("Patient ID: ABC-123\n" ++ sfx) = "ABC-123" := by
  have htc : takeConsumed
      ('A':: 'B':: 'C':: '-':: '1':: '2':: '3':: '\n'::sfx.data) ('\n'::sfx.data) =
      ['A', 'B', 'C', '-', '1', '2', '3'] := by
    have h := takeConsumed_append ['A', 'B', 'C', '-', '1', '2', '3']
      ('\n'::sfx.data)
    simpa using h
  have hdata : ("Patient ID: ABC-123\n" ++ sfx).data =
      'P':: 'a':: 't':: 'i':: 'e':: 'n':: 't':: ' ':: 'I':: 'D':: ':':: ' '::
      'A':: 'B':: 'C':: '-':: '1':: '2':: '3':: '\n'::sfx.data := by
    rw [String.data_append]
    rfl
  have hmatch : matchR patientIdR
      ('P':: 'a':: 't':: 'i':: 'e':: 'n':: 't':: ' ':: 'I':: 'D':: ':':: ' '::
       'A':: 'B':: 'C':: '-':: '1':: '2':: '3':: '\n'::sfx.data) none
      (fun _ cap => some cap) =
      some (some ['A', 'B', 'C', '-', '1', '2', '3']) := by
    simp +decide [patientIdR, rseq, rlit, matchR, litMatch, tryDrops,
      starCounts, descFrom, htc, ciEq, isColonWs, isPyWs, isIdChar]
  have hsearch : reSearch patientIdR ("Patient ID: ABC-123\n" ++ sfx).data =
      some (some ['A', 'B', 'C', '-', '1', '2', '3']) := by
    rw [hdata]
    simp only [reSearch]
    rw [hmatch]
  unfold extract_value
  rw [hsearch]
  rfl
